import Mathlib

/-!
Shallow embedding of `user_visit/models.py`: the `RequestParser` fingerprint
extractor and the `UserVisitManager.record` find-or-create upsert, together
with the persisted `UserVisit` record store they operate on.

Conventions of the embedding:
* Django's `HttpRequest` is modelled by the fields the code reads: the
  session (absent or present, with an optional persisted key), the user
  (absent or present, with a primary key and an `is_anonymous` flag), the
  HTTP headers as an association list, and the transport-level
  `META["REMOTE_ADDR"]` value.
* `datetime.date` / `datetime.datetime` are modelled structurally; the only
  operations the code uses are equality and `datetime.date()` extraction.
* The database is a `Store`: a list of `UserVisit` rows in creation order
  together with the next auto-increment primary key.  Django's
  `QuerySet.get` (zero / one / many semantics), `create`, and
  `filter(...).last()` (which, on an unordered queryset, orders by primary
  key) are modelled on that list.
* Python exceptions become `Except String`; `ValueError` from the parser
  (the spec's `InvalidRequestContext`) is the error message string.
-/

/-- A calendar date (`datetime.date`). -/
structure Date where
  year : Nat
  month : Nat
  day : Nat
deriving DecidableEq, Repr

/-- A point in time (`datetime.datetime`): its calendar date plus the
time-of-day remainder.  `DateTime.date` is `datetime.datetime.date()`. -/
structure DateTime where
  date : Date
  secondOfDay : Nat
deriving DecidableEq, Repr

/-- The authenticated principal attached to a request (`request.user`):
its primary key `pk` and the `is_anonymous` flag. -/
structure AuthUser where
  pk : Nat
  is_anonymous : Bool
deriving DecidableEq, Repr

/-- A Django session object (`request.session`); `session_key` is `None`
for a session that has not been persisted yet. -/
structure DjangoSession where
  session_key : Option String
deriving DecidableEq, Repr

/-- The subset of `django.http.HttpRequest` that `RequestParser` reads.
`session`/`user` are `none` when the corresponding attribute is missing
(the `not request.session` / `not request.user` branches), and
`meta_remote_addr` is `request.META.get("REMOTE_ADDR")`. -/
structure HttpRequest where
  session : Option DjangoSession
  user : Option AuthUser
  headers : List (String × String)
  meta_remote_addr : Option String
deriving DecidableEq, Repr

/-- Model of `request.headers.get(name)`. -/
def getHeader (req : HttpRequest) (name : String) : Option String :=
  (req.headers.find? (fun kv => kv.fst == name)).map (fun kv => kv.snd)

/-- Helper for `pySplit`: split a character list at every occurrence of
`sep`, keeping empty groups, as Python's `str.split(sep)` does. -/
def splitChars (sep : Char) : List Char → List (List Char)
  | [] => [[]]
  | c :: cs =>
    let rest := splitChars sep cs
    if c = sep then [] :: rest
    else
      match rest with
      | [] => [[c]]
      | g :: gs => (c :: g) :: gs

/-- Python's `s.split(sep)` for a one-character separator: splits at every
occurrence, keeps empty pieces, and returns `[""]` for the empty string. -/
def pySplit (sep : Char) (s : String) : List String :=
  (splitChars sep s.data).map (fun cs => String.mk cs)

namespace HttpRequest

/-- Source `RequestParser.remote_addr`:

    x_forwarded_for = self.request.headers.get("X-Forwarded-For")
    if x_forwarded_for:
        return x_forwarded_for.split(",")[0]
    return self.request.META.get("REMOTE_ADDR", "")

Note the Python truthiness test: a *present but empty* `X-Forwarded-For`
header is falsy and falls through to `REMOTE_ADDR`. -/
def remote_addr (req : HttpRequest) : String :=
  match getHeader req "X-Forwarded-For" with
  | some xff => if xff = "" then (req.meta_remote_addr).getD "" else (pySplit ',' xff).headD ""
  | none => (req.meta_remote_addr).getD ""

/-- Source `RequestParser.session_key`: `self.request.session.session_key or ""`.
Only evaluated after the parser has checked the session is attached; for a
session-less request we return `""` (the Python property is never reached
there). -/
def session_key (req : HttpRequest) : String :=
  match req.session with
  | some sess => sess.session_key.getD ""
  | none => ""

/-- Source `RequestParser.ua_string`: `self.request.headers.get("User-Agent", "")`. -/
def ua_string (req : HttpRequest) : String :=
  (getHeader req "User-Agent").getD ""

end HttpRequest

/-- The fingerprint state held by a constructed `RequestParser`: the
authenticated user, the date fixed at construction time
(`datetime.date.today()`), and the three derived request properties.  The
Python object stores the request and derives the properties lazily; the
request is immutable here, so the eager record is equivalent. -/
structure RequestParser where
  user : AuthUser
  date : Date
  session_key : String
  remote_addr : String
  ua_string : String
deriving DecidableEq, Repr

/-- Source `RequestParser.__init__(request)`: raises `ValueError` if the request
has no session, has no user, or the user is anonymous; otherwise fixes the
construction-time date (`today`) and wraps the request.  Errors are the
`ValueError` messages from the source. -/
def parseRequest (req : HttpRequest) (today : Date) : Except String RequestParser :=
  match req.session with
  | none => Except.error "Request object has no session."
  | some _ =>
    match req.user with
    | none => Except.error "Request object has no user."
    | some u =>
      if u.is_anonymous then Except.error "Request user is anonymous."
      else Except.ok
        { user := u
          date := today
          session_key := req.session_key
          remote_addr := req.remote_addr
          ua_string := req.ua_string }

/-- Source `RequestParser.__hash__`, abstracted over the Python builtin `hash` on
each field type (the source XORs the five field hashes):

    hash(self.user.pk) ^ hash(self.date) ^ hash(self.remote_addr)
      ^ hash(self.session_key) ^ hash(self.ua_string)
-/
def parserHash (hashNat : Nat → Nat) (hashDate : Date → Nat)
    (hashStr : String → Nat) (p : RequestParser) : Nat :=
  hashNat p.user.pk ^^^ hashDate p.date ^^^ hashStr p.remote_addr
    ^^^ hashStr p.session_key ^^^ hashStr p.ua_string

/-- Source `RequestParser.cache_key`: `f"user_visit:{self.user.pk}"`. -/
def cache_key (p : RequestParser) : String :=
  "user_visit:" ++ toString p.user.pk

/-- A persisted `UserVisit` row.  `id` is the store-assigned auto-increment
primary key (creation order). -/
structure UserVisit where
  id : Nat
  user_id : Nat
  timestamp : DateTime
  session_key : String
  remote_addr : String
  ua_string : String
deriving DecidableEq, Repr

/-- The record store: rows in creation order plus the next primary key. -/
structure Store where
  next_id : Nat
  records : List UserVisit
deriving DecidableEq, Repr

/-- The exact-match filter used by `record`'s lookup:

    user=request.user, timestamp__date=timestamp.date(),
    session_key=..., ua_string=..., remote_addr=...
-/
def visitFilter (userPk : Nat) (d : Date) (sk ua ra : String)
    (r : UserVisit) : Bool :=
  r.user_id == userPk && r.timestamp.date == d && r.session_key == sk
    && r.ua_string == ua && r.remote_addr == ra

/-- The rows matching `record`'s lookup filter, in primary-key order
(`UserVisit.objects.filter(...)` over the store). -/
def matchingRecords (s : Store) (userPk : Nat) (d : Date)
    (sk ua ra : String) : List UserVisit :=
  s.records.filter (visitFilter userPk d sk ua ra)

/-- The row `UserVisit.objects.create(user=..., timestamp=..., ...)` inserts:
the parser's fields plus the supplied timestamp, under the store's next
auto-increment primary key. -/
def newVisit (s : Store) (p : RequestParser) (ts : DateTime) : UserVisit :=
  { id := s.next_id
    user_id := p.user.pk
    timestamp := ts
    session_key := p.session_key
    remote_addr := p.remote_addr
    ua_string := p.ua_string }

/-- The store after that `create`: the new row appended, next key bumped. -/
def createVisit (s : Store) (p : RequestParser) (ts : DateTime) : Store :=
  { next_id := s.next_id + 1, records := s.records ++ [newVisit s p ts] }

/-- Source `UserVisitManager.record(request, timestamp)` with the timestamp passed
explicitly.  `today` is the wall-clock date the constructed parser captures
(`datetime.date.today()`).

  * parse the request (propagating the parser's `ValueError`);
  * `objects.get(...)`: exactly one match returns it unchanged; no match
    (`DoesNotExist`) creates a row carrying the supplied timestamp;
  * `MultipleObjectsReturned` re-queries the same filter and takes
    `.last()`, which on an unordered queryset is the row with the greatest
    primary key — `List.getLast?` of the creation-ordered matches.

The result mirrors the source's `Optional[UserVisit]` return type. -/
def record (req : HttpRequest) (timestamp : DateTime) (today : Date)
    (s : Store) : Except String (Option UserVisit × Store) :=
  match parseRequest req today with
  | Except.error e => Except.error e
  | Except.ok p =>
    match matchingRecords s p.user.pk timestamp.date p.session_key p.ua_string p.remote_addr with
    | [uv] => Except.ok (some uv, s)
    | [] => Except.ok (some (newVisit s p timestamp), createVisit s p timestamp)
    | ms => Except.ok (ms.getLast?, s)

/-- Calling `record` with the `timestamp` argument omitted.  The source's
signature is

    def record(self, request, timestamp: datetime.datetime = timezone.now())

and Python evaluates a default-argument expression once, when the `def` is
executed (at module import), so every call that omits `timestamp` reuses
the single datetime captured at import time.  `importNow` is that frozen
value; `callNow` is the wall-clock time of this particular call, which the
code never consults. -/
def recordNoTimestamp (importNow : DateTime) (callNow : DateTime)
    (req : HttpRequest) (today : Date) (s : Store) :
    Except String (Option UserVisit × Store) :=
  record req importNow today s

/-- Iterated invocations of `record` on the same request: the list of the
per-call results together with the final store.  A failed call leaves the
store unchanged (the exception aborts before any write). -/
def recordMany (req : HttpRequest) (today : Date) :
    List DateTime → Store → List (Except String (Option UserVisit)) × Store
  | [], s => ([], s)
  | t :: ts, s =>
    match record req t today s with
    | Except.error e =>
      let rest := recordMany req today ts s
      (Except.error e :: rest.fst, rest.snd)
    | Except.ok (uv, s1) =>
      let rest := recordMany req today ts s1
      (Except.ok uv :: rest.fst, rest.snd)

-- Sanity checks of the embedding on concrete inputs.
example :
    HttpRequest.remote_addr
      { session := none, user := none,
        headers := [("X-Forwarded-For", "1.2.3.4, 5.6.7.8")],
        meta_remote_addr := some "9.9.9.9" } = "1.2.3.4" := by decide

example :
    HttpRequest.remote_addr
      { session := none, user := none, headers := [],
        meta_remote_addr := some "9.9.9.9" } = "9.9.9.9" := by decide

/-! ### Concrete inputs used by witnesses and counterexamples -/

/-- A valid authenticated request: session `"sess-A"`, user pk `1`,
user-agent `"TestAgent/1.0"`, transport address `"9.9.9.9"`. -/
def okReq : HttpRequest :=
  { session := some { session_key := some "sess-A" }
    user := some { pk := 1, is_anonymous := false }
    headers := [("User-Agent", "TestAgent/1.0")]
    meta_remote_addr := some "9.9.9.9" }

/-- A request with no session attached. -/
def noSessionReq : HttpRequest :=
  { session := none
    user := some { pk := 1, is_anonymous := false }
    headers := []
    meta_remote_addr := none }

/-- A request whose `X-Forwarded-For` header is present but empty. -/
def xffEmptyReq : HttpRequest :=
  { session := none
    user := none
    headers := [("X-Forwarded-For", "")]
    meta_remote_addr := some "5.6.7.8" }

/-- The empty store. -/
def emptyStore : Store := { next_id := 0, records := [] }

/-- A fingerprint with session key `"sess-A"` and user-agent `"agent-B"`. -/
def fpA : RequestParser :=
  { user := { pk := 1, is_anonymous := false }, date := { year := 2024, month := 3, day := 1 }
    session_key := "sess-A", remote_addr := "9.9.9.9", ua_string := "agent-B" }

/-- The fingerprint `fpA` with the session key and user-agent values
swapped: a different fingerprint over the same five value multiset. -/
def fpB : RequestParser :=
  { user := { pk := 1, is_anonymous := false }, date := { year := 2024, month := 3, day := 1 }
    session_key := "agent-B", remote_addr := "9.9.9.9", ua_string := "sess-A" }

/-- Calendar date 2024-03-01. -/
def day1 : Date := { year := 2024, month := 3, day := 1 }

/-- Calendar date 2024-03-02. -/
def day2 : Date := { year := 2024, month := 3, day := 2 }

/-- Timestamp 2024-03-01 10:00. -/
def t10 : DateTime := { date := day1, secondOfDay := 36000 }

/-- Timestamp 2024-03-01 18:00. -/
def t18 : DateTime := { date := day1, secondOfDay := 64800 }

/-- The request `okReq` with its session replaced by `"sess-B"`. -/
def okReqB : HttpRequest :=
  { okReq with session := some { session_key := some "sess-B" } }

/-- The fingerprint `RequestParser(okReq)` extracts on `day1`. -/
def okParserA : RequestParser :=
  { user := { pk := 1, is_anonymous := false }, date := day1
    session_key := "sess-A", remote_addr := "9.9.9.9", ua_string := "TestAgent/1.0" }

/-- The fingerprint `RequestParser(okReqB)` extracts on `day1`. -/
def okParserB : RequestParser :=
  { okParserA with session_key := "sess-B" }

/-- A first simulated duplicate row for `okReq`'s fingerprint on `day1`. -/
def visitA : UserVisit :=
  { id := 0, user_id := 1, timestamp := t10
    session_key := "sess-A", remote_addr := "9.9.9.9", ua_string := "TestAgent/1.0" }

/-- A second simulated duplicate row, created one minute later. -/
def visitB : UserVisit :=
  { visitA with id := 1, timestamp := { date := day1, secondOfDay := 36060 } }

/-- A store holding the two duplicate rows left by a simulated race. -/
def dupStore : Store := { next_id := 2, records := [visitA, visitB] }

/-! ### Helper lemmas about the upsert branches -/

/-- Helper: with a valid parse and no matching row, `record` takes the
`DoesNotExist` branch and creates. -/
theorem record_creates (req : HttpRequest) (ts : DateTime) (today : Date)
    (s : Store) (p : RequestParser)
    (h : parseRequest req today = Except.ok p)
    (hms : matchingRecords s p.user.pk ts.date p.session_key p.ua_string p.remote_addr = []) :
    record req ts today s = Except.ok (some (newVisit s p ts), createVisit s p ts) := by
  simp [record, h, hms]

/-- Helper: with a valid parse and exactly one matching row, `record`
returns it and leaves the store unchanged. -/
theorem record_finds (req : HttpRequest) (ts : DateTime) (today : Date)
    (s : Store) (p : RequestParser) (uv : UserVisit)
    (h : parseRequest req today = Except.ok p)
    (hms : matchingRecords s p.user.pk ts.date p.session_key p.ua_string p.remote_addr = [uv]) :
    record req ts today s = Except.ok (some uv, s) := by
  simp [record, h, hms]

/-- Helper: a freshly created row satisfies the lookup filter of its own
fingerprint for any timestamp on the same date. -/
theorem newVisit_filter (s : Store) (p : RequestParser) (ts : DateTime) (d : Date)
    (hd : ts.date = d) :
    visitFilter p.user.pk d p.session_key p.ua_string p.remote_addr (newVisit s p ts) = true := by
  simp [visitFilter, newVisit, hd]

/-- Helper: the rows matching a filter after a `create` are the rows
matching before, plus the new row when it matches. -/
theorem matchingRecords_createVisit (s : Store) (p : RequestParser) (ts : DateTime)
    (k : Nat) (d : Date) (sk ua ra : String) :
    matchingRecords (createVisit s p ts) k d sk ua ra
      = matchingRecords s k d sk ua ra
        ++ (if visitFilter k d sk ua ra (newVisit s p ts) then [newVisit s p ts] else []) := by
  simp [matchingRecords, createVisit, List.filter_append, List.filter_cons]

/-- Helper: a change of the construction-time date re-parses to the same
fingerprint up to its `date` field. -/
theorem parseRequest_date (req : HttpRequest) (d d' : Date) (p : RequestParser)
    (h : parseRequest req d = Except.ok p) :
    parseRequest req d' = Except.ok { p with date := d' } := by
  cases hs : req.session with
  | none => simp [parseRequest, hs] at h
  | some sess =>
    cases hu : req.user with
    | none => simp [parseRequest, hs, hu] at h
    | some u =>
      by_cases ha : u.is_anonymous
      · simp [parseRequest, hs, hu, ha] at h
      · have h3 : parseRequest req d = Except.ok
            { user := u, date := d, session_key := req.session_key
              remote_addr := req.remote_addr, ua_string := req.ua_string } := by
          simp [parseRequest, hs, hu, ha]
        have hp : p = { user := u, date := d, session_key := req.session_key
                        remote_addr := req.remote_addr, ua_string := req.ua_string } :=
          (Except.ok.inj (h3.symm.trans h)).symm
        subst hp
        simp [parseRequest, hs, hu, ha]

/-! ### Claim theorems -/

/-- C10: `cache_key` is the string `"user_visit:"` followed by the user's
primary key, a function of the user identifier alone — two parsers with
the same user yield equal cache keys whatever their date, session key,
remote address or user-agent string. -/
theorem cache_key_user_only :
    (∀ p : RequestParser, cache_key p = "user_visit:" ++ toString p.user.pk) ∧
    (∀ p₁ p₂ : RequestParser, p₁.user.pk = p₂.user.pk → cache_key p₁ = cache_key p₂) := by
  refine ⟨fun p => rfl, fun p₁ p₂ h => ?_⟩
  simp [cache_key, h]

/-- Witness for C10: the two fingerprints `fpA` and `fpB` share user pk `1`
but differ in date-independent fields, and their cache keys are equal. -/
theorem cache_key_user_only_witness :
    cache_key { user := { pk := 1, is_anonymous := false }
                date := { year := 2024, month := 3, day := 1 }
                session_key := "sess-A", remote_addr := "9.9.9.9", ua_string := "agent-B" }
      = cache_key { user := { pk := 1, is_anonymous := false }
                    date := { year := 2024, month := 3, day := 2 }
                    session_key := "sess-B", remote_addr := "5.6.7.8", ua_string := "other" } :=
  cache_key_user_only.2 _ _ rfl

/-- C2 (code bug): the source's default `timestamp=timezone.now()` is
evaluated once at module import, so a call omitting the timestamp uses the
frozen import-time datetime, not the current time of the call: the result
never depends on the call-time clock, and concretely a call made on
2024-03-02 still looks up and creates under the import-time timestamp
2024-03-01 10:00. -/
theorem record_default_timestamp_frozen :
    (∀ importNow n₁ n₂ req today s,
        recordNoTimestamp importNow n₁ req today s
          = recordNoTimestamp importNow n₂ req today s) ∧
    (∃ uv s₁,
        recordNoTimestamp { date := { year := 2024, month := 3, day := 1 }, secondOfDay := 36000 }
            { date := { year := 2024, month := 3, day := 2 }, secondOfDay := 36000 }
            okReq { year := 2024, month := 3, day := 2 } emptyStore
          = Except.ok (some uv, s₁) ∧
        uv.timestamp = { date := { year := 2024, month := 3, day := 1 }, secondOfDay := 36000 } ∧
        uv.timestamp.date ≠ { year := 2024, month := 3, day := 2 }) := by
  refine ⟨fun _ _ _ _ _ _ => rfl, ?_⟩
  exact ⟨_, _, rfl, rfl, by decide⟩

/-- C4 (code bug): the fingerprint's XOR-of-field-hashes makes two
fingerprints with *different* fields (session key and user-agent values
swapped) hash equal under every choice of the per-field hash functions, so
hash-equivalence does not imply that all five fields match. -/
theorem parserHash_collision_on_distinct_fields :
    (∀ hashNat hashDate hashStr,
        parserHash hashNat hashDate hashStr fpA = parserHash hashNat hashDate hashStr fpB) ∧
    fpA.session_key ≠ fpB.session_key ∧ fpA.ua_string ≠ fpB.ua_string ∧
    fpA.user = fpB.user ∧ fpA.date = fpB.date ∧ fpA.remote_addr = fpB.remote_addr := by
  refine ⟨fun hn hd hs => ?_, by decide, by decide, rfl, rfl, rfl⟩
  have h1 : hs "sess-A" ^^^ hs "agent-B" = hs "agent-B" ^^^ hs "sess-A" := Nat.xor_comm _ _
  simp [parserHash, fpA, fpB, Nat.xor_assoc, h1]

/-- C6 counterexample: a request whose `X-Forwarded-For` header is present
(with the empty value) does not get the header's first comma-separated
entry (`""`): the code's truthiness test falls back to `REMOTE_ADDR`. -/
theorem remote_addr_xff_present_counterexample :
    getHeader xffEmptyReq "X-Forwarded-For" = some "" ∧
    (pySplit ',' "").headD "" = "" ∧
    xffEmptyReq.remote_addr = "5.6.7.8" ∧
    xffEmptyReq.remote_addr ≠ (pySplit ',' "").headD "" := by decide

/-- C6 (amended): if a *non-empty* `X-Forwarded-For` header is present the
derived `remote_addr` is its first comma-separated entry; otherwise (header
absent or empty) it is `META["REMOTE_ADDR"]`, defaulting to the empty
string; in particular `"1.2.3.4, 5.6.7.8"` yields `"1.2.3.4"`. -/
theorem remote_addr_derivation :
    (∀ (req : HttpRequest) (xff : String),
        getHeader req "X-Forwarded-For" = some xff → xff ≠ "" →
        req.remote_addr = (pySplit ',' xff).headD "") ∧
    (∀ req : HttpRequest,
        getHeader req "X-Forwarded-For" = none ∨ getHeader req "X-Forwarded-For" = some "" →
        req.remote_addr = req.meta_remote_addr.getD "") ∧
    HttpRequest.remote_addr
      { session := none, user := none
        headers := [("X-Forwarded-For", "1.2.3.4, 5.6.7.8")]
        meta_remote_addr := some "9.9.9.9" } = "1.2.3.4" := by
  refine ⟨fun req xff h hne => ?_, fun req h => ?_, by decide⟩
  · simp [HttpRequest.remote_addr, h, hne]
  · rcases h with h | h <;> simp [HttpRequest.remote_addr, h]

/-- Witness for C6 (amended): at the header value `"1.2.3.4, 5.6.7.8"` the
first clause applies and gives `"1.2.3.4"`. -/
theorem remote_addr_derivation_witness :
    HttpRequest.remote_addr
      { session := none, user := none
        headers := [("X-Forwarded-For", "1.2.3.4, 5.6.7.8")]
        meta_remote_addr := some "9.9.9.9" }
      = (pySplit ',' "1.2.3.4, 5.6.7.8").headD "" :=
  remote_addr_derivation.1
    { session := none, user := none
      headers := [("X-Forwarded-For", "1.2.3.4, 5.6.7.8")]
      meta_remote_addr := some "9.9.9.9" }
    "1.2.3.4, 5.6.7.8" (by decide) (by decide)

/-- C3: on a request with no session, no user, or an anonymous user, the
parser raises (the spec's `InvalidRequestContext`) and `record` propagates
that error before touching the store, so no `UserVisit` is created. -/
theorem record_precondition_enforcement
    (req : HttpRequest) (ts : DateTime) (today : Date) (s : Store)
    (h : req.session = none ∨ req.user = none ∨
        ∃ u, req.user = some u ∧ u.is_anonymous = true) :
    (∃ e, parseRequest req today = Except.error e) ∧
    (∃ e, record req ts today s = Except.error e) := by
  have hp : ∃ e, parseRequest req today = Except.error e := by
    rcases h with h | h | ⟨u, hu, ha⟩
    · exact ⟨"Request object has no session.", by simp [parseRequest, h]⟩
    · cases hs : req.session with
      | none => exact ⟨"Request object has no session.", by simp [parseRequest, hs]⟩
      | some sess => exact ⟨"Request object has no user.", by simp [parseRequest, hs, h]⟩
    · cases hs : req.session with
      | none => exact ⟨"Request object has no session.", by simp [parseRequest, hs]⟩
      | some sess => exact ⟨"Request user is anonymous.", by simp [parseRequest, hs, hu, ha]⟩
  rcases hp with ⟨e, he⟩
  exact ⟨⟨e, he⟩, ⟨e, by simp [record, he]⟩⟩

/-- Witness for C3: the session-less request fails both the parser and
`record` on the empty store. -/
theorem record_precondition_enforcement_witness :
    (∃ e, parseRequest noSessionReq { year := 2024, month := 3, day := 1 }
        = Except.error e) ∧
    (∃ e, record noSessionReq
        { date := { year := 2024, month := 3, day := 1 }, secondOfDay := 36000 }
        { year := 2024, month := 3, day := 1 } emptyStore = Except.error e) :=
  record_precondition_enforcement noSessionReq
    { date := { year := 2024, month := 3, day := 1 }, secondOfDay := 36000 }
    { year := 2024, month := 3, day := 1 } emptyStore (Or.inl rfl)

/-- C8: on any validly parsed request, `record` returns `Except.ok` with a
`some` visit — never `none` — whatever the store contents; its only failure
mode is the parser's error, which the valid-parse hypothesis excludes. -/
theorem record_total (req : HttpRequest) (ts : DateTime) (today : Date)
    (s : Store) (p : RequestParser)
    (h : parseRequest req today = Except.ok p) :
    ∃ uv s', record req ts today s = Except.ok (some uv, s') := by
  rcases hms : matchingRecords s p.user.pk ts.date p.session_key p.ua_string p.remote_addr with
    _ | ⟨a, _ | ⟨b, l⟩⟩
  · exact ⟨_, _, record_creates req ts today s p h hms⟩
  · exact ⟨a, s, record_finds req ts today s p a h hms⟩
  · obtain ⟨m, hm⟩ : ∃ m, (a :: b :: l).getLast? = some m := by
      cases hgl : (a :: b :: l).getLast? with
      | none => rw [List.getLast?_eq_none_iff] at hgl; cases hgl
      | some m => exact ⟨m, rfl⟩
    have hrec : record req ts today s = Except.ok ((a :: b :: l).getLast?, s) := by
      simp [record, h, hms]
    exact ⟨m, s, by rw [hrec, hm]⟩

/-- Witness for C8: on the valid request `okReq` over the empty store,
`record` returns a visit. -/
theorem record_total_witness :
    ∃ uv s', record okReq t10 day1 emptyStore = Except.ok (some uv, s') :=
  record_total okReq t10 day1 emptyStore okParserA rfl

/-- C9: the dedup date comes from the supplied timestamp, never from the
fingerprint's construction-time date: `record`'s whole outcome is
invariant under the parser's `today`, and a row created at timestamp `ts`
is found — not duplicated — by a later call whose timestamp falls on
`ts.date`, even when both calls' extraction dates differ arbitrarily. -/
theorem record_date_from_timestamp :
    (∀ req ts d₁ d₂ s, record req ts d₁ s = record req ts d₂ s) ∧
    (∀ (req : HttpRequest) (ts ts' : DateTime) (d d' : Date) (s : Store) (p : RequestParser),
      parseRequest req d = Except.ok p →
      matchingRecords s p.user.pk ts.date p.session_key p.ua_string p.remote_addr = [] →
      ts'.date = ts.date →
      record req ts d s = Except.ok (some (newVisit s p ts), createVisit s p ts) ∧
      record req ts' d' (createVisit s p ts)
        = Except.ok (some (newVisit s p ts), createVisit s p ts)) := by
  constructor
  · intro req ts d₁ d₂ s
    cases hs : req.session with
    | none => simp [record, parseRequest, hs]
    | some sess =>
      cases hu : req.user with
      | none => simp [record, parseRequest, hs, hu]
      | some u =>
        by_cases ha : u.is_anonymous <;>
          simp [record, parseRequest, hs, hu, ha, newVisit, createVisit]
  · intro req ts ts' d d' s p h hclean hdate
    refine ⟨record_creates req ts d s p h hclean, ?_⟩
    have h' : parseRequest req d' = Except.ok { p with date := d' } :=
      parseRequest_date req d d' p h
    have hms : matchingRecords (createVisit s p ts) p.user.pk ts'.date
        p.session_key p.ua_string p.remote_addr = [newVisit s p ts] := by
      rw [hdate, matchingRecords_createVisit, hclean, newVisit_filter s p ts ts.date rfl]
      simp
    exact record_finds req ts' d' (createVisit s p ts) { p with date := d' } (newVisit s p ts) h' hms

/-- Witness for C9: a visit created at 10:00 on 2024-03-01 with extraction
date `day1` is returned unchanged by an 18:00 call whose parser was
constructed on `day2`. -/
theorem record_date_from_timestamp_witness :
    record okReq t10 day1 emptyStore
      = Except.ok (some (newVisit emptyStore okParserA t10), createVisit emptyStore okParserA t10) ∧
    record okReq t18 day2 (createVisit emptyStore okParserA t10)
      = Except.ok (some (newVisit emptyStore okParserA t10), createVisit emptyStore okParserA t10) :=
  record_date_from_timestamp.2 okReq t10 t18 day1 day2 emptyStore okParserA rfl rfl rfl

/-- Helper: while the store holds exactly one row matching the fingerprint
at each call's date, repeated `record` calls all return that row and never
change the store. -/
theorem recordMany_steady (req : HttpRequest) (today : Date) (p : RequestParser)
    (uv : UserVisit) (h : parseRequest req today = Except.ok p) :
    ∀ (tss : List DateTime) (s : Store),
      (∀ t ∈ tss, matchingRecords s p.user.pk t.date p.session_key p.ua_string p.remote_addr = [uv]) →
      recordMany req today tss s = (tss.map (fun _ => Except.ok (some uv)), s) := by
  intro tss
  induction tss with
  | nil => intro s _; rfl
  | cons t ts ih =>
    intro s hall
    have h1 := record_finds req t today s p uv h (hall t (List.mem_cons_self t ts))
    have h2 := ih s (fun t' ht' => hall t' (List.mem_cons_of_mem t ht'))
    simp [recordMany, h1, h2]

/-- C1: starting from a store with no row matching the fingerprint, any
number of same-day `record` calls yields one created row: every call
returns that same row, its timestamp is the first call's timestamp, and
exactly one matching row is observable afterwards. -/
theorem record_idempotent_per_day (req : HttpRequest) (today : Date)
    (t : DateTime) (tss : List DateTime) (s : Store) (p : RequestParser)
    (h : parseRequest req today = Except.ok p)
    (hclean : matchingRecords s p.user.pk t.date p.session_key p.ua_string p.remote_addr = [])
    (hsame : ∀ t' ∈ tss, t'.date = t.date) :
    ∃ uv, uv.timestamp = t ∧
      recordMany req today (t :: tss) s
        = ((t :: tss).map (fun _ => Except.ok (some uv)), createVisit s p t) ∧
      (matchingRecords (createVisit s p t) p.user.pk t.date p.session_key p.ua_string
        p.remote_addr).length = 1 := by
  refine ⟨newVisit s p t, rfl, ?_, ?_⟩
  · have h1 := record_creates req t today s p h hclean
    have hsteady : recordMany req today tss (createVisit s p t)
        = (tss.map (fun _ => Except.ok (some (newVisit s p t))), createVisit s p t) := by
      apply recordMany_steady req today p (newVisit s p t) h
      intro t' ht'
      rw [hsame t' ht', matchingRecords_createVisit, hclean,
        newVisit_filter s p t t.date rfl]
      simp
    simp [recordMany, h1, hsteady]
  · rw [matchingRecords_createVisit, hclean, newVisit_filter s p t t.date rfl]
    simp

/-- Witness for C1: three same-day calls on `okReq` (10:00, 18:00, 18:00)
over the empty store all return the 10:00 row, and one row remains. -/
theorem record_idempotent_per_day_witness :
    ∃ uv, uv.timestamp = t10 ∧
      recordMany okReq day1 [t10, t18, t18] emptyStore
        = ([t10, t18, t18].map (fun _ => Except.ok (some uv)),
           createVisit emptyStore okParserA t10) ∧
      (matchingRecords (createVisit emptyStore okParserA t10) okParserA.user.pk t10.date
        okParserA.session_key okParserA.ua_string okParserA.remote_addr).length = 1 :=
  record_idempotent_per_day okReq day1 t10 [t18, t18] emptyStore okParserA rfl rfl
    (by intro t' ht'; simp at ht'; rw [ht']; rfl)

/-- C7: with the user and calendar date held fixed, changing exactly one of
session key, remote address, or user-agent string between two `record`
calls makes the second call create a second, distinct row: both rows are
observable afterwards. -/
theorem record_discriminates
    (req₁ req₂ : HttpRequest) (today₁ today₂ : Date) (t₁ t₂ : DateTime)
    (s : Store) (p₁ p₂ : RequestParser)
    (h₁ : parseRequest req₁ today₁ = Except.ok p₁)
    (h₂ : parseRequest req₂ today₂ = Except.ok p₂)
    (huser : p₂.user.pk = p₁.user.pk)
    (hdate : t₂.date = t₁.date)
    (hdiff :
      (p₂.session_key ≠ p₁.session_key ∧ p₂.remote_addr = p₁.remote_addr
        ∧ p₂.ua_string = p₁.ua_string) ∨
      (p₂.session_key = p₁.session_key ∧ p₂.remote_addr ≠ p₁.remote_addr
        ∧ p₂.ua_string = p₁.ua_string) ∨
      (p₂.session_key = p₁.session_key ∧ p₂.remote_addr = p₁.remote_addr
        ∧ p₂.ua_string ≠ p₁.ua_string))
    (hclean₁ : matchingRecords s p₁.user.pk t₁.date p₁.session_key p₁.ua_string
      p₁.remote_addr = [])
    (hclean₂ : matchingRecords s p₂.user.pk t₂.date p₂.session_key p₂.ua_string
      p₂.remote_addr = []) :
    record req₁ t₁ today₁ s = Except.ok (some (newVisit s p₁ t₁), createVisit s p₁ t₁) ∧
    record req₂ t₂ today₂ (createVisit s p₁ t₁)
      = Except.ok (some (newVisit (createVisit s p₁ t₁) p₂ t₂),
                   createVisit (createVisit s p₁ t₁) p₂ t₂) ∧
    newVisit s p₁ t₁ ≠ newVisit (createVisit s p₁ t₁) p₂ t₂ ∧
    newVisit s p₁ t₁ ∈ (createVisit (createVisit s p₁ t₁) p₂ t₂).records ∧
    newVisit (createVisit s p₁ t₁) p₂ t₂ ∈ (createVisit (createVisit s p₁ t₁) p₂ t₂).records := by
  have hmiss : visitFilter p₂.user.pk t₂.date p₂.session_key p₂.ua_string p₂.remote_addr
      (newVisit s p₁ t₁) = false := by
    rcases hdiff with ⟨hne, hra, hua⟩ | ⟨hsk, hne, hua⟩ | ⟨hsk, hra, hne⟩ <;>
      simp [visitFilter, newVisit]
    · intro _ _ hsk' _
      exact absurd hsk'.symm hne
    · intro _ _ _ _ hra'
      exact hne hra'.symm
    · intro _ _ _ hua'
      exact absurd hua'.symm hne
  have hclean₂' : matchingRecords (createVisit s p₁ t₁) p₂.user.pk t₂.date
      p₂.session_key p₂.ua_string p₂.remote_addr = [] := by
    rw [matchingRecords_createVisit, hclean₂, hmiss]
    simp
  refine ⟨record_creates req₁ t₁ today₁ s p₁ h₁ hclean₁,
          record_creates req₂ t₂ today₂ (createVisit s p₁ t₁) p₂ h₂ hclean₂', ?_, ?_, ?_⟩
  · intro heq
    have hid := congrArg UserVisit.id heq
    simp [newVisit, createVisit] at hid
  · simp [createVisit]
  · simp [createVisit]

/-- Witness for C7: `okReq` then `okReqB` (same user, same date, session
key changed from `"sess-A"` to `"sess-B"`) create two distinct rows. -/
theorem record_discriminates_witness :
    record okReq t10 day1 emptyStore
      = Except.ok (some (newVisit emptyStore okParserA t10), createVisit emptyStore okParserA t10) ∧
    record okReqB t18 day1 (createVisit emptyStore okParserA t10)
      = Except.ok (some (newVisit (createVisit emptyStore okParserA t10) okParserB t18),
                   createVisit (createVisit emptyStore okParserA t10) okParserB t18) ∧
    newVisit emptyStore okParserA t10
      ≠ newVisit (createVisit emptyStore okParserA t10) okParserB t18 ∧
    newVisit emptyStore okParserA t10
      ∈ (createVisit (createVisit emptyStore okParserA t10) okParserB t18).records ∧
    newVisit (createVisit emptyStore okParserA t10) okParserB t18
      ∈ (createVisit (createVisit emptyStore okParserA t10) okParserB t18).records :=
  record_discriminates okReq okReqB day1 day1 t10 t18 emptyStore okParserA okParserB
    rfl rfl rfl rfl (Or.inl ⟨by decide, rfl, rfl⟩) rfl rfl

/-- Helper: in a list whose `id`s are strictly increasing (auto-increment
primary keys in creation order), the last element has the greatest `id`. -/
theorem getLast_max_id :
    ∀ (l : List UserVisit), l.Pairwise (fun a b => a.id < b.id) →
      ∀ m, l.getLast? = some m → ∀ x ∈ l, x.id ≤ m.id := by
  intro l
  induction l with
  | nil => intro _ m hm; simp at hm
  | cons a t ih =>
    intro hp m hm x hx
    cases t with
    | nil =>
      simp at hm hx
      rw [hx, hm]
    | cons b u =>
      rw [List.getLast?_cons_cons] at hm
      rcases List.pairwise_cons.mp hp with ⟨hlt, hp'⟩
      have hmem : m ∈ b :: u := by
        obtain ⟨hne, heq⟩ := List.mem_getLast?_eq_getLast (Option.mem_def.mpr hm)
        rw [heq]
        exact List.getLast_mem hne
      rcases List.mem_cons.mp hx with hx | hx
      · rw [hx]
        exact le_of_lt (hlt m hmem)
      · exact ih hp' m hm x hx

/-- C5: when the lookup matches two or more rows (a race left duplicates),
`record` raises no error: it returns, with the store unchanged, a row
obtained by re-querying the same filter — a matching row whose primary key
is the greatest, i.e. the most-recently-created match. -/
theorem record_race_resolution (req : HttpRequest) (ts : DateTime) (today : Date)
    (s : Store) (p : RequestParser)
    (h : parseRequest req today = Except.ok p)
    (hsorted : s.records.Pairwise (fun a b => a.id < b.id))
    (hmulti : 2 ≤ (matchingRecords s p.user.pk ts.date p.session_key p.ua_string
      p.remote_addr).length) :
    ∃ uv, record req ts today s = Except.ok (some uv, s) ∧
      uv ∈ matchingRecords s p.user.pk ts.date p.session_key p.ua_string p.remote_addr ∧
      ∀ r ∈ matchingRecords s p.user.pk ts.date p.session_key p.ua_string p.remote_addr,
        r.id ≤ uv.id := by
  have hsortedm : (matchingRecords s p.user.pk ts.date p.session_key p.ua_string
      p.remote_addr).Pairwise (fun a b => a.id < b.id) :=
    List.Pairwise.sublist (List.filter_sublist _) hsorted
  rcases hms : matchingRecords s p.user.pk ts.date p.session_key p.ua_string p.remote_addr
    with _ | ⟨a, _ | ⟨b, l⟩⟩
  · rw [hms] at hmulti; simp at hmulti
  · rw [hms] at hmulti; simp at hmulti
  · rw [hms] at hsortedm
    obtain ⟨m, hm⟩ : ∃ m, (a :: b :: l).getLast? = some m := by
      cases hgl : (a :: b :: l).getLast? with
      | none => rw [List.getLast?_eq_none_iff] at hgl; cases hgl
      | some m => exact ⟨m, rfl⟩
    have hrec : record req ts today s = Except.ok ((a :: b :: l).getLast?, s) := by
      simp [record, h, hms]
    have hmem : m ∈ a :: b :: l := by
      obtain ⟨hne, heq⟩ := List.mem_getLast?_eq_getLast (Option.mem_def.mpr hm)
      rw [heq]
      exact List.getLast_mem hne
    refine ⟨m, by rw [hrec, hm], hmem, ?_⟩
    intro r hr
    exact getLast_max_id (a :: b :: l) hsortedm m hm r hr

/-- Witness for C5: on the store holding the duplicate rows `visitA` and
`visitB`, a `record` call for `okReq`'s fingerprint returns the
most-recently-created duplicate without error. -/
theorem record_race_resolution_witness :
    ∃ uv, record okReq t18 day1 dupStore = Except.ok (some uv, dupStore) ∧
      uv ∈ matchingRecords dupStore okParserA.user.pk t18.date okParserA.session_key
        okParserA.ua_string okParserA.remote_addr ∧
      ∀ r ∈ matchingRecords dupStore okParserA.user.pk t18.date okParserA.session_key
        okParserA.ua_string okParserA.remote_addr, r.id ≤ uv.id :=
  record_race_resolution okReq t18 day1 dupStore okParserA rfl
    (by simp [dupStore, List.pairwise_cons, visitA, visitB]) (by decide)
